import Mathlib

/-!
Shallow embedding of the battleship-solver repository (files
`battleship/core.py`, `battleship/strategy.py`, `battleship/game.py`).

Modelling conventions:
* Python `int` is `Int`; `(row, col)` positions are `Int × Int`.
* Python's `set` of hit positions is a `Finset (Int × Int)`.
* Python's `dict` from position to cell state is an association list
  `List ((Int × Int) × CellState)`; `receive_shot` only inserts a key when it
  is absent, so insertion is modelled as appending the new binding and lookup
  as `List.lookup` (first binding wins), which agrees with the dict.
* Mutation is modelled by returning the updated object alongside the Python
  return value.
* `random.choice(available)` in `RandomStrategy.get_next_shot` is modelled by
  an extra argument `k : Nat` selecting `available[k % available.length]`;
  every concrete random draw corresponds to some `k`.
-/

namespace Battleship

/-- `CellState` enum from `core.py`: Unknown / Miss / Hit. -/
inductive CellState where
  | unknown
  | miss
  | hit
  deriving DecidableEq, Repr

/-- `ShipType` enum from `core.py`; the enum value is the ship's size. -/
inductive ShipType where
  | carrier
  | battleship
  | cruiser
  | submarine
  | destroyer
  deriving DecidableEq, Repr

/-- The `value` of a `ShipType` member (its size). -/
def ShipType.value : ShipType → Nat
  | .carrier => 5
  | .battleship => 4
  | .cruiser => 3
  | .submarine => 3
  | .destroyer => 2

/-- `Orientation` enum from `core.py`. -/
inductive Orient where
  | horizontal
  | vertical
  deriving DecidableEq, Repr

/-- `Ship` from `core.py`: type, orientation, start position, and the set of
positions hit so far (`hit_positions` starts empty at construction). -/
structure Ship where
  ship_type : ShipType
  orientation : Orient
  start_position : Int × Int
  hit_positions : Finset (Int × Int)
  deriving DecidableEq

/-- `self.size = ship_type.value` set in `Ship.__init__`. -/
def Ship.size (s : Ship) : Nat :=
  s.ship_type.value

/-- `Ship.get_positions`: the `size` cells extending right (horizontal) or
down (vertical) from `start_position`. -/
def Ship.get_positions (s : Ship) : List (Int × Int) :=
  (List.range s.size).map fun i =>
    match s.orientation with
    | .horizontal => (s.start_position.1, s.start_position.2 + (i : Int))
    | .vertical => (s.start_position.1 + (i : Int), s.start_position.2)

/-- `Ship.is_sunk`: all positions hit, i.e. the number of distinct hit cells
equals the ship's size. -/
def Ship.is_sunk (s : Ship) : Bool :=
  s.hit_positions.card == s.size

/-- `Ship.register_hit`: if the position belongs to the ship and was not
already hit, add it to `hit_positions` and return `true`; otherwise leave
the ship unchanged and return `false`. -/
def Ship.register_hit (s : Ship) (p : Int × Int) : Ship × Bool :=
  if p ∈ s.get_positions ∧ p ∉ s.hit_positions then
    ({ s with hit_positions := insert p s.hit_positions }, true)
  else
    (s, false)

/-- `Board` from `core.py`: board size, placed ships, and the shot record. -/
structure Board where
  size : Int
  ships : List Ship
  shots : List ((Int × Int) × CellState)
  deriving DecidableEq

/-- `Board.__init__`: empty ship list and empty shot record. -/
def Board.init (size : Int) : Board :=
  { size := size, ships := [], shots := [] }

/-- `Board.place_ship`: reject if any occupied cell is out of bounds, then
reject if the ship's cells intersect any already-placed ship's cells;
otherwise append the ship and report success. -/
def Board.place_ship (b : Board) (ship : Ship) : Board × Bool :=
  if ship.get_positions.any (fun pos =>
      decide (pos.1 < 0) || decide (pos.1 ≥ b.size) ||
      decide (pos.2 < 0) || decide (pos.2 ≥ b.size)) then
    (b, false)
  else if b.ships.any (fun existing_ship =>
      ship.get_positions.any (fun pos =>
        decide (pos ∈ existing_ship.get_positions))) then
    (b, false)
  else
    ({ b with ships := b.ships ++ [ship] }, true)

/-- The `for ship in self.ships` loop of `Board.receive_shot`: scan the ships
in order; on the first ship occupying the position, call `register_hit` on it
and stop (returning `true`); if no ship occupies it, return `false` with the
list unchanged. -/
def shootShips : List Ship → Int × Int → List Ship × Bool
  | [], _ => ([], false)
  | s :: rest, p =>
    if p ∈ s.get_positions then
      ((s.register_hit p).1 :: rest, true)
    else
      let r := shootShips rest p
      (s :: r.1, r.2)

/-- `Board.receive_shot`: replay the recorded state if the position was
already shot; otherwise scan ships for one occupying the position, register
the hit and record Hit, or record Miss. -/
def Board.receive_shot (b : Board) (p : Int × Int) : Board × CellState :=
  match b.shots.lookup p with
  | some st => (b, st)
  | none =>
    let r := shootShips b.ships p
    if r.2 then
      ({ b with ships := r.1, shots := b.shots ++ [(p, CellState.hit)] },
        CellState.hit)
    else
      ({ b with shots := b.shots ++ [(p, CellState.miss)] }, CellState.miss)

/-- `Board.are_all_ships_sunk`: every placed ship reports sunk. -/
def Board.are_all_ships_sunk (b : Board) : Bool :=
  b.ships.all Ship.is_sunk

/-- Mutable state of `Strategy` from `strategy.py`: board size plus the shot,
hit, and miss histories. -/
structure Strategy where
  board_size : Int
  shots : List (Int × Int)
  hits : List (Int × Int)
  misses : List (Int × Int)
  deriving DecidableEq

/-- `Strategy.__init__`: empty histories. -/
def Strategy.init (board_size : Int) : Strategy :=
  { board_size := board_size, shots := [], hits := [], misses := [] }

/-- `Strategy.get_available_positions`: all `(row, col)` with
`0 ≤ row, col < board_size` not yet present in the shot history, rows outer,
columns inner. -/
def Strategy.get_available_positions (s : Strategy) : List (Int × Int) :=
  (List.range s.board_size.toNat).flatMap fun row =>
    ((List.range s.board_size.toNat).map fun col =>
      ((row : Int), (col : Int))).filter fun p => decide (p ∉ s.shots)

/-- `Strategy.register_result`: append the position to the shot history and
to the hit or miss history according to the result. -/
def Strategy.register_result (s : Strategy) (p : Int × Int)
    (result : CellState) : Strategy :=
  let s1 := { s with shots := s.shots ++ [p] }
  match result with
  | .hit => { s1 with hits := s1.hits ++ [p] }
  | .miss => { s1 with misses := s1.misses ++ [p] }
  | .unknown => s1

/-- `RandomStrategy.get_next_shot`: return the sentinel `(-1, -1)` when no
position is available, otherwise one of the available positions; the random
draw `random.choice(available)` is modelled by the index argument `k`. -/
def RandomStrategy.get_next_shot (s : Strategy) (k : Nat) : Int × Int :=
  let available := s.get_available_positions
  if available.isEmpty then
    (-1, -1)
  else
    available.getD (k % available.length) (-1, -1)

/-- The summary dict returned by `Game.play_turn`; keys absent from the dict
in a given branch are `none`. -/
structure TurnSummary where
  player_shot : Option (Int × Int)
  player_result : Option CellState
  ai_shot : Option (Int × Int)
  ai_result : Option CellState
  game_over : Bool
  winner : Option String
  turn_count : Option Int
  deriving DecidableEq

/-- `Game` from `game.py` with the default `RandomStrategy` AI. -/
structure Game where
  player_board : Board
  ai_board : Board
  board_size : Int
  turn_count : Int
  game_over : Bool
  winner : Option String
  ai_strategy : Strategy
  deriving DecidableEq

/-- `Game.__init__` with the default AI strategy. -/
def Game.init (board_size : Int) : Game :=
  { player_board := Board.init board_size
    ai_board := Board.init board_size
    board_size := board_size
    turn_count := 0
    game_over := false
    winner := none
    ai_strategy := Strategy.init board_size }

/-- `Game.player_shoot`: sentinel Unknown if terminal; otherwise shoot the AI
board and transition to terminal with winner "Player" if it is fully sunk. -/
def Game.player_shoot (g : Game) (p : Int × Int) : Game × CellState :=
  if g.game_over then
    (g, CellState.unknown)
  else
    let r := g.ai_board.receive_shot p
    let g1 := { g with ai_board := r.1 }
    if r.1.are_all_ships_sunk then
      ({ g1 with game_over := true, winner := some "Player" }, r.2)
    else
      (g1, r.2)

/-- `Game.ai_shoot`: sentinel if terminal or the strategy has no available
position; otherwise shoot the player board at the strategy's chosen position,
register the result with the strategy, and transition to terminal with winner
"AI" if the player board is fully sunk. The random draw is modelled by `k`. -/
def Game.ai_shoot (g : Game) (k : Nat) : Game × ((Int × Int) × CellState) :=
  if g.game_over then
    (g, ((-1, -1), CellState.unknown))
  else
    let position := RandomStrategy.get_next_shot g.ai_strategy k
    if position = (-1, -1) then
      (g, ((-1, -1), CellState.unknown))
    else
      let r := g.player_board.receive_shot position
      let strat := g.ai_strategy.register_result position r.2
      let g1 := { g with player_board := r.1, ai_strategy := strat }
      if r.1.are_all_ships_sunk then
        ({ g1 with game_over := true, winner := some "AI" }, (position, r.2))
      else
        (g1, (position, r.2))

/-- `Game.play_turn`: early return with only the terminal state if already
terminal; otherwise increment the turn counter, take the player's shot, and —
only if the game did not just end — the AI's shot. The dict keys present in
each branch mirror `game.py` exactly. -/
def Game.play_turn (g : Game) (p : Int × Int) (k : Nat) :
    Game × TurnSummary :=
  if g.game_over then
    (g, { player_shot := none, player_result := none, ai_shot := none,
          ai_result := none, game_over := true, winner := g.winner,
          turn_count := none })
  else
    let g1 := { g with turn_count := g.turn_count + 1 }
    let ps := g1.player_shoot p
    if ps.1.game_over then
      (ps.1, { player_shot := some p, player_result := some ps.2,
               ai_shot := none, ai_result := none, game_over := true,
               winner := ps.1.winner, turn_count := none })
    else
      let ar := ps.1.ai_shoot k
      (ar.1, { player_shot := some p, player_result := some ps.2,
               ai_shot := some ar.2.1, ai_result := some ar.2.2,
               game_over := ar.1.game_over, winner := ar.1.winner,
               turn_count := some ar.1.turn_count })

/-! ### Concrete fixtures used by witnesses and counterexamples -/

/-- A freshly constructed Destroyer at `(0, 0)`, horizontal. -/
def destShip : Ship :=
  { ship_type := .destroyer, orientation := .horizontal,
    start_position := (0, 0), hit_positions := ∅ }

/-- A 10×10 board holding only `destShip`, no shots taken. -/
def destBoard : Board :=
  ((Board.init 10).place_ship destShip).1

/-! ### Helper lemmas -/

theorem lookup_append_single {α β : Type} [BEq α] [LawfulBEq α]
    (l : List (α × β)) (p : α) (v : β) (h : l.lookup p = none) :
    (l ++ [(p, v)]).lookup p = some v := by
  induction l with
  | nil => simp [List.lookup]
  | cons x t ih =>
    obtain ⟨k, w⟩ := x
    by_cases hk : p == k
    · simp [List.lookup, hk] at h
    · simp only [List.cons_append, List.lookup, hk] at h ⊢
      exact ih h

theorem receive_shot_already (b : Board) (p : Int × Int) (st : CellState)
    (h : b.shots.lookup p = some st) : b.receive_shot p = (b, st) := by
  simp [Board.receive_shot, h]

/-- After any shot, the shot record holds exactly the returned state at the
shot position. -/
theorem receive_shot_recorded (b : Board) (p : Int × Int) :
    (b.receive_shot p).1.shots.lookup p = some (b.receive_shot p).2 := by
  unfold Board.receive_shot
  cases h : b.shots.lookup p with
  | some st => simpa using h
  | none =>
    by_cases hf : (shootShips b.ships p).2
    · simp [hf, lookup_append_single _ _ _ h]
    · simp [hf, lookup_append_single _ _ _ h]

theorem shootShips_found_iff (l : List Ship) (p : Int × Int) :
    (shootShips l p).2 = true ↔ ∃ s ∈ l, p ∈ s.get_positions := by
  induction l with
  | nil => simp [shootShips]
  | cons s rest ih =>
    by_cases hs : p ∈ s.get_positions
    · simp [shootShips, hs]
    · simp [shootShips, hs, ih]

theorem shootShips_not_found (l : List Ship) (p : Int × Int)
    (h : (shootShips l p).2 = false) : (shootShips l p).1 = l := by
  induction l with
  | nil => simp [shootShips]
  | cons s rest ih =>
    by_cases hs : p ∈ s.get_positions
    · simp [shootShips, hs] at h
    · simp only [shootShips, hs, if_false, if_neg hs] at h ⊢
      simp [ih h]

theorem register_hit_mem (s : Ship) (p : Int × Int)
    (h : p ∈ s.get_positions) : p ∈ (s.register_hit p).1.hit_positions := by
  unfold Ship.register_hit
  by_cases hp : p ∈ s.hit_positions
  · simp [hp]
  · simp [h, hp]

theorem shootShips_hit_mem (l : List Ship) (p : Int × Int)
    (h : (shootShips l p).2 = true) :
    ∃ s ∈ (shootShips l p).1, p ∈ s.hit_positions := by
  induction l with
  | nil => simp [shootShips] at h
  | cons s rest ih =>
    by_cases hs : p ∈ s.get_positions
    · refine ⟨(s.register_hit p).1, ?_, register_hit_mem s p hs⟩
      simp [shootShips, hs]
    · simp only [shootShips, if_neg hs] at h ⊢
      obtain ⟨t, ht, hpt⟩ := ih h
      exact ⟨t, List.mem_cons_of_mem _ ht, hpt⟩

/-! ### Claims -/

/-- C1: for every board and position `p`, a second `receive_shot p` returns
the same `CellState` as the first and changes nothing — the whole board
(every ship's `hit_positions` and the `shots` mapping) is unchanged by the
second call. -/
theorem claim_C1_receive_shot_idempotent (b : Board) (p : Int × Int) :
    ((b.receive_shot p).1.receive_shot p).2 = (b.receive_shot p).2 ∧
    ((b.receive_shot p).1.receive_shot p).1 = (b.receive_shot p).1 := by
  rw [receive_shot_already (b.receive_shot p).1 p (b.receive_shot p).2
    (receive_shot_recorded b p)]
  exact ⟨rfl, rfl⟩

/-- C2: for a position not yet in the shot record, `receive_shot` returns and
records Hit and the hit is registered on an occupying ship exactly when some
placed ship occupies the position; otherwise it records and returns Miss and
leaves the ship list unchanged. -/
theorem claim_C2_receive_shot_fresh (b : Board) (p : Int × Int)
    (h : b.shots.lookup p = none) :
    ((∃ s ∈ b.ships, p ∈ s.get_positions) →
        (b.receive_shot p).2 = CellState.hit ∧
        (b.receive_shot p).1.shots = b.shots ++ [(p, CellState.hit)] ∧
        ∃ s ∈ (b.receive_shot p).1.ships, p ∈ s.hit_positions) ∧
    ((∀ s ∈ b.ships, p ∉ s.get_positions) →
        (b.receive_shot p).2 = CellState.miss ∧
        (b.receive_shot p).1.shots = b.shots ++ [(p, CellState.miss)] ∧
        (b.receive_shot p).1.ships = b.ships) := by
  constructor
  · intro hex
    have hf : (shootShips b.ships p).2 = true := (shootShips_found_iff _ _).2 hex
    simp only [Board.receive_shot, h, hf, if_true]
    exact ⟨trivial, trivial, shootShips_hit_mem _ _ hf⟩
  · intro hall
    have hf : (shootShips b.ships p).2 = false := by
      rw [← Bool.not_eq_true, shootShips_found_iff]
      push_neg
      exact hall
    simp only [Board.receive_shot, h, hf, Bool.false_eq_true, if_false]
    exact ⟨trivial, trivial, by simp [shootShips_not_found _ _ hf]⟩

/-- Witness for C2 at concrete inputs: on a 10×10 board holding one fresh
Destroyer at (0,0)–(0,1), a first shot at (0,0) is a Hit and a first shot at
(5,5) is a Miss. -/
theorem claim_C2_witness :
    (destBoard.receive_shot (0, 0)).2 = CellState.hit ∧
    (destBoard.receive_shot (5, 5)).2 = CellState.miss := by
  constructor
  · exact ((claim_C2_receive_shot_fresh destBoard (0, 0) (by decide)).1
      (by decide)).1
  · exact ((claim_C2_receive_shot_fresh destBoard (5, 5) (by decide)).2
      (by decide)).1

theorem oob_check_false_iff (b : Board) (ship : Ship) :
    (ship.get_positions.any (fun pos =>
        decide (pos.1 < 0) || decide (pos.1 ≥ b.size) ||
        decide (pos.2 < 0) || decide (pos.2 ≥ b.size)) = false) ↔
    ∀ pos ∈ ship.get_positions,
      0 ≤ pos.1 ∧ pos.1 < b.size ∧ 0 ≤ pos.2 ∧ pos.2 < b.size := by
  rw [← Bool.not_eq_true, List.any_eq_true]
  push_neg
  refine forall_congr' fun pos => forall_congr' fun _ => ?_
  simp [not_or, not_lt, le_iff_lt_or_eq]
  omega

theorem overlap_check_false_iff (b : Board) (ship : Ship) :
    (b.ships.any (fun existing_ship =>
        ship.get_positions.any (fun pos =>
          decide (pos ∈ existing_ship.get_positions))) = false) ↔
    ∀ existing_ship ∈ b.ships, ∀ pos ∈ ship.get_positions,
      pos ∉ existing_ship.get_positions := by
  rw [← Bool.not_eq_true, List.any_eq_true]
  push_neg
  refine forall_congr' fun ex => forall_congr' fun _ => ?_
  rw [ne_eq, List.any_eq_true]
  push_neg
  refine forall_congr' fun pos => forall_congr' fun _ => ?_
  simp

/-- C5: `place_ship` succeeds and appends the ship exactly when every
occupied cell is within `[0, size)` on both axes and intersects no
already-placed ship's cells; on success only the ship list changes (the ship
is appended), and on failure the whole board — ship list and shot record —
is unchanged. -/
theorem claim_C5_place_ship_validate_then_commit (b : Board) (ship : Ship) :
    ((b.place_ship ship).2 = true ↔
      ((∀ pos ∈ ship.get_positions,
          0 ≤ pos.1 ∧ pos.1 < b.size ∧ 0 ≤ pos.2 ∧ pos.2 < b.size) ∧
        ∀ existing_ship ∈ b.ships, ∀ pos ∈ ship.get_positions,
          pos ∉ existing_ship.get_positions)) ∧
    ((b.place_ship ship).2 = true →
      (b.place_ship ship).1 = { b with ships := b.ships ++ [ship] }) ∧
    ((b.place_ship ship).2 = false → (b.place_ship ship).1 = b) := by
  by_cases h1 : (ship.get_positions.any (fun pos =>
      decide (pos.1 < 0) || decide (pos.1 ≥ b.size) ||
      decide (pos.2 < 0) || decide (pos.2 ≥ b.size))) = true
  · have hpair : b.place_ship ship = (b, false) := by
      unfold Board.place_ship
      rw [if_pos h1]
    have hb : ¬ ∀ pos ∈ ship.get_positions,
        0 ≤ pos.1 ∧ pos.1 < b.size ∧ 0 ≤ pos.2 ∧ pos.2 < b.size := by
      intro hall
      rw [(oob_check_false_iff b ship).2 hall] at h1
      exact Bool.false_ne_true h1
    rw [hpair]
    exact ⟨⟨fun hf => (Bool.false_ne_true hf).elim,
        fun hc => (hb hc.1).elim⟩,
      fun hf => (Bool.false_ne_true hf).elim, fun _ => rfl⟩
  · by_cases h2 : (b.ships.any (fun existing_ship =>
        ship.get_positions.any (fun pos =>
          decide (pos ∈ existing_ship.get_positions)))) = true
    · have hpair : b.place_ship ship = (b, false) := by
        unfold Board.place_ship
        rw [if_neg h1, if_pos h2]
      have ho : ¬ ∀ existing_ship ∈ b.ships, ∀ pos ∈ ship.get_positions,
          pos ∉ existing_ship.get_positions := by
        intro hall
        rw [(overlap_check_false_iff b ship).2 hall] at h2
        exact Bool.false_ne_true h2
      rw [hpair]
      exact ⟨⟨fun hf => (Bool.false_ne_true hf).elim,
          fun hc => (ho hc.2).elim⟩,
        fun hf => (Bool.false_ne_true hf).elim, fun _ => rfl⟩
    · have hpair : b.place_ship ship =
          ({ b with ships := b.ships ++ [ship] }, true) := by
        unfold Board.place_ship
        rw [if_neg h1, if_neg h2]
      have hb := (oob_check_false_iff b ship).1 (Bool.eq_false_iff.2 h1)
      have ho := (overlap_check_false_iff b ship).1 (Bool.eq_false_iff.2 h2)
      rw [hpair]
      exact ⟨⟨fun _ => ⟨hb, ho⟩, fun _ => rfl⟩, fun _ => rfl,
        fun hf => Bool.noConfusion hf⟩

/-- The five standard ships, freshly constructed on distinct rows. -/
def standardFleetShips : List Ship :=
  [ { ship_type := .carrier, orientation := .horizontal,
      start_position := (0, 0), hit_positions := ∅ },
    { ship_type := .battleship, orientation := .horizontal,
      start_position := (1, 0), hit_positions := ∅ },
    { ship_type := .cruiser, orientation := .horizontal,
      start_position := (2, 0), hit_positions := ∅ },
    { ship_type := .submarine, orientation := .horizontal,
      start_position := (3, 0), hit_positions := ∅ },
    { ship_type := .destroyer, orientation := .horizontal,
      start_position := (4, 0), hit_positions := ∅ } ]

/-- A 10×10 board after placing the whole standard fleet through
`place_ship`, with zero shots taken. -/
def freshFleetBoard : Board :=
  standardFleetShips.foldl (fun b s => (b.place_ship s).1) (Board.init 10)

/-- C8: `are_all_ships_sunk` is true exactly when every placed ship's count
of distinct hit cells equals its size, and it is false on a 10×10 board that
freshly received the five standard ships with zero shots taken. -/
theorem claim_C8_all_sunk_iff (b : Board) :
    (b.are_all_ships_sunk = true ↔
      ∀ s ∈ b.ships, s.hit_positions.card = s.size) ∧
    freshFleetBoard.ships = standardFleetShips ∧
    freshFleetBoard.shots = [] ∧
    freshFleetBoard.are_all_ships_sunk = false := by
  refine ⟨?_, by decide, by decide, by decide⟩
  simp [Board.are_all_ships_sunk, List.all_eq_true, Ship.is_sunk]

theorem receive_shot_ships_nil (b : Board) (p : Int × Int)
    (h : b.ships = []) : (b.receive_shot p).1.ships = [] := by
  unfold Board.receive_shot
  cases hl : b.shots.lookup p with
  | some st => simpa using h
  | none => simp [h, shootShips]

/-- C9: a board with an empty ship list counts as fully sunk, so on a game
where `setup_game` was never run the very first player shot (directly or via
`play_turn`) makes the game terminal with winner "Player", whatever the
position. -/
theorem claim_C9_empty_board_instant_win (b : Board) (n : Int)
    (p : Int × Int) (k : Nat) (h : b.ships = []) :
    b.are_all_ships_sunk = true ∧
    ((Game.init n).player_shoot p).1.game_over = true ∧
    ((Game.init n).player_shoot p).1.winner = some "Player" ∧
    ((Game.init n).play_turn p k).1.game_over = true ∧
    ((Game.init n).play_turn p k).1.winner = some "Player" := by
  have hsunk : ∀ b' : Board, b'.ships = [] → b'.are_all_ships_sunk = true := by
    intro b' h'
    simp [Board.are_all_ships_sunk, h']
  have hshot : ((Board.init n).receive_shot p).1.ships = [] :=
    receive_shot_ships_nil _ _ rfl
  have hps : ((Game.init n).player_shoot p).1.game_over = true ∧
      ((Game.init n).player_shoot p).1.winner = some "Player" := by
    unfold Game.player_shoot
    simp only [Game.init, Bool.false_eq_true, if_false, hsunk _ hshot,
      if_true]
    exact ⟨by trivial, by trivial⟩
  refine ⟨hsunk b h, hps.1, hps.2, ?_⟩
  unfold Game.play_turn
  have hg1 : ({ Game.init n with turn_count := (Game.init n).turn_count + 1 }
      : Game).player_shoot p =
      (({ (((Game.init n).player_shoot p).1) with
          turn_count := (Game.init n).turn_count + 1 } : Game),
        ((Game.init n).player_shoot p).2) := by
    unfold Game.player_shoot
    simp only [Game.init, Bool.false_eq_true, if_false, hsunk _ hshot,
      if_true]
  simp only [Game.init, Bool.false_eq_true, if_false] at hg1 ⊢
  rw [hg1]
  simp only [hps.1, if_true]
  exact ⟨hps.1, hps.2⟩

/-- Witness for C9 at concrete inputs: an empty 3×3 board, and the first
shot at `(3, 4)` on a fresh (never set up) 10×10 game. -/
theorem claim_C9_witness :
    (Board.init 3).are_all_ships_sunk = true ∧
    ((Game.init 10).player_shoot (3, 4)).1.game_over = true ∧
    ((Game.init 10).player_shoot (3, 4)).1.winner = some "Player" ∧
    ((Game.init 10).play_turn (3, 4) 0).1.game_over = true ∧
    ((Game.init 10).play_turn (3, 4) 0).1.winner = some "Player" :=
  claim_C9_empty_board_instant_win (Board.init 3) 10 (3, 4) 0 rfl

/-- C10: `receive_shot` is total over all integer pairs: on a board whose
placed ships all lie in bounds, a not-yet-shot position outside
`[0, size) × [0, size)` — the sentinel `(-1, -1)` included — is recorded as
Miss, returned as Miss, and no ship changes. -/
theorem claim_C10_receive_shot_out_of_bounds (b : Board) (p : Int × Int)
    (hships : ∀ s ∈ b.ships, ∀ q ∈ s.get_positions,
        0 ≤ q.1 ∧ q.1 < b.size ∧ 0 ≤ q.2 ∧ q.2 < b.size)
    (hoob : p.1 < 0 ∨ p.1 ≥ b.size ∨ p.2 < 0 ∨ p.2 ≥ b.size)
    (hfresh : b.shots.lookup p = none) :
    (b.receive_shot p).2 = CellState.miss ∧
    (b.receive_shot p).1.shots = b.shots ++ [(p, CellState.miss)] ∧
    (b.receive_shot p).1.ships = b.ships := by
  have hall : ∀ s ∈ b.ships, p ∉ s.get_positions := by
    intro s hs hp
    obtain ⟨h1, h2, h3, h4⟩ := hships s hs p hp
    rcases hoob with h | h | h | h <;> omega
  have hf : (shootShips b.ships p).2 = false := by
    rw [← Bool.not_eq_true, shootShips_found_iff]
    push_neg
    exact hall
  simp only [Board.receive_shot, hfresh, hf, Bool.false_eq_true, if_false]
  exact ⟨trivial, trivial, by simp [shootShips_not_found _ _ hf]⟩

/-- Witness for C10 at a concrete input: shooting the sentinel `(-1, -1)` on
the 10×10 board holding one in-bounds Destroyer records and returns Miss. -/
theorem claim_C10_witness :
    (destBoard.receive_shot (-1, -1)).2 = CellState.miss ∧
    (destBoard.receive_shot (-1, -1)).1.shots =
      destBoard.shots ++ [((-1, -1), CellState.miss)] ∧
    (destBoard.receive_shot (-1, -1)).1.ships = destBoard.ships :=
  claim_C10_receive_shot_out_of_bounds destBoard (-1, -1) (by decide)
    (by decide) (by decide)

theorem mem_available_iff (s : Strategy) (p : Int × Int) :
    p ∈ s.get_available_positions ↔
      0 ≤ p.1 ∧ p.1 < s.board_size ∧ 0 ≤ p.2 ∧ p.2 < s.board_size ∧
      p ∉ s.shots := by
  obtain ⟨a, b⟩ := p
  simp [Strategy.get_available_positions, List.mem_flatMap,
    List.mem_filter, List.mem_map, List.mem_range, decide_eq_true_eq]
  constructor
  · rintro ⟨r, hr, ⟨⟨c, hc, hb⟩, ha⟩, hns⟩
    exact ⟨by omega, by omega, by omega, by omega, hns⟩
  · rintro ⟨h1, h2, h3, h4, h5⟩
    exact ⟨a.toNat, by omega, ⟨⟨b.toNat, by omega, by omega⟩, by omega⟩, h5⟩

/-- A strategy state whose own shot history contains the sentinel `(-1, -1)`
besides the whole 1×1 board, so no position is available. -/
def sentinelHistoryStrategy : Strategy :=
  { board_size := 1, shots := [(0, 0), (-1, -1)], hits := [], misses := [] }

/-- Counterexample to C6 as stated: on a strategy state whose shot history
already contains the sentinel `(-1, -1)` and every board cell,
`get_next_shot` returns `(-1, -1)`, a position already present in its own
shot history. -/
theorem claim_C6_counterexample :
    RandomStrategy.get_next_shot sentinelHistoryStrategy 0 = (-1, -1) ∧
    (-1, -1) ∈ sentinelHistoryStrategy.shots := by
  decide

/-- C6 (amended): `get_next_shot` returns the sentinel `(-1, -1)` exactly
when `get_available_positions()` is empty — and only then can it return a
member of the shot history, namely the sentinel itself if the history
contains it; otherwise it returns an element of `get_available_positions()`,
which lies in `[0, board_size) × [0, board_size)` and is not in the shot
history. -/
theorem claim_C6_get_next_shot_amended (s : Strategy) (k : Nat) :
    (RandomStrategy.get_next_shot s k = (-1, -1) ↔
      s.get_available_positions = []) ∧
    (s.get_available_positions ≠ [] →
      RandomStrategy.get_next_shot s k ∈ s.get_available_positions ∧
      0 ≤ (RandomStrategy.get_next_shot s k).1 ∧
      (RandomStrategy.get_next_shot s k).1 < s.board_size ∧
      0 ≤ (RandomStrategy.get_next_shot s k).2 ∧
      (RandomStrategy.get_next_shot s k).2 < s.board_size ∧
      RandomStrategy.get_next_shot s k ∉ s.shots) := by
  by_cases hav : s.get_available_positions = []
  · have hshot : RandomStrategy.get_next_shot s k = (-1, -1) := by
      unfold RandomStrategy.get_next_shot
      simp [hav]
    exact ⟨⟨fun _ => hav, fun _ => hshot⟩, fun hne => (hne hav).elim⟩
  · have hmem : RandomStrategy.get_next_shot s k ∈
        s.get_available_positions := by
      unfold RandomStrategy.get_next_shot
      have hempty : s.get_available_positions.isEmpty = false := by
        simpa [List.isEmpty_iff] using hav
      simp only [hempty, Bool.false_eq_true, if_false]
      have hlen : 0 < s.get_available_positions.length :=
        List.length_pos.2 hav
      rw [List.getD_eq_getElem _ _ (Nat.mod_lt _ hlen)]
      exact List.getElem_mem _
    have hspec := (mem_available_iff s _).1 hmem
    refine ⟨⟨fun heq => ?_, fun h => (hav h).elim⟩,
      fun _ => ⟨hmem, hspec.1, hspec.2.1, hspec.2.2.1, hspec.2.2.2.1,
        hspec.2.2.2.2⟩⟩
    rw [heq] at hspec
    omega

/-- The Destroyer at `(0, 0)` with `(0, 1)` already hit: one cell from
sunk. -/
def hurtShip : Ship :=
  { destShip with hit_positions := {(0, 1)} }

/-- A 10×10 board whose only ship is `hurtShip`, with the matching shot
already recorded. -/
def hurtBoard : Board :=
  { size := 10, ships := [hurtShip], shots := [((0, 1), CellState.hit)] }

/-- A game one player shot away from a player win: the AI board is
`hurtBoard`. -/
def nearlySunkGame : Game :=
  { (Game.init 10) with ai_board := hurtBoard }

/-- A game already in the terminal state. -/
def finishedGame : Game :=
  { (Game.init 10) with game_over := true, winner := some "AI" }

theorem player_shoot_turn_count (g : Game) (p : Int × Int) :
    (g.player_shoot p).1.turn_count = g.turn_count := by
  unfold Game.player_shoot
  by_cases h : g.game_over = true
  · simp [h]
  · simp only [h, Bool.false_eq_true, if_false]
    split <;> rfl

theorem player_shoot_player_board (g : Game) (p : Int × Int) :
    (g.player_shoot p).1.player_board = g.player_board := by
  unfold Game.player_shoot
  by_cases h : g.game_over = true
  · simp [h]
  · simp only [h, Bool.false_eq_true, if_false]
    split <;> rfl

theorem player_shoot_ai_strategy (g : Game) (p : Int × Int) :
    (g.player_shoot p).1.ai_strategy = g.ai_strategy := by
  unfold Game.player_shoot
  by_cases h : g.game_over = true
  · simp [h]
  · simp only [h, Bool.false_eq_true, if_false]
    split <;> rfl

theorem player_shoot_winner_of_win (g : Game) (p : Int × Int)
    (h : g.game_over = false)
    (hw : (g.player_shoot p).1.game_over = true) :
    (g.player_shoot p).1.winner = some "Player" := by
  unfold Game.player_shoot at hw ⊢
  simp only [h, Bool.false_eq_true, if_false] at hw ⊢
  split at hw
  · split
    · rfl
    · simp_all
  · exact absurd hw (by simp [h])

theorem ai_shoot_turn_count (g : Game) (k : Nat) :
    (g.ai_shoot k).1.turn_count = g.turn_count := by
  unfold Game.ai_shoot
  by_cases h : g.game_over = true
  · simp [h]
  · simp only [h, Bool.false_eq_true, if_false]
    split
    · rfl
    · split <;> rfl

/-- C7: `ai_shoot` returns the sentinel `((-1, -1), Unknown)` and changes
nothing (game, boards and strategy included) when the game is terminal or
the strategy has no available position; otherwise it shoots the player board
at the strategy's chosen position, registers the true result back into the
strategy, reports that position and result, and becomes terminal with winner
"AI" exactly when the player board is then fully sunk. -/
theorem claim_C7_ai_shoot_sentinel_or_shot (g : Game) (k : Nat) :
    (g.game_over = true →
      g.ai_shoot k = (g, ((-1, -1), CellState.unknown))) ∧
    (g.game_over = false → g.ai_strategy.get_available_positions = [] →
      g.ai_shoot k = (g, ((-1, -1), CellState.unknown))) ∧
    (g.game_over = false → g.ai_strategy.get_available_positions ≠ [] →
      (g.ai_shoot k).1.player_board =
        (g.player_board.receive_shot
          (RandomStrategy.get_next_shot g.ai_strategy k)).1 ∧
      (g.ai_shoot k).1.ai_strategy =
        g.ai_strategy.register_result
          (RandomStrategy.get_next_shot g.ai_strategy k)
          (g.player_board.receive_shot
            (RandomStrategy.get_next_shot g.ai_strategy k)).2 ∧
      (g.ai_shoot k).2 = (RandomStrategy.get_next_shot g.ai_strategy k,
        (g.player_board.receive_shot
          (RandomStrategy.get_next_shot g.ai_strategy k)).2) ∧
      (g.ai_shoot k).1.game_over =
        (g.player_board.receive_shot
          (RandomStrategy.get_next_shot g.ai_strategy k)).1.are_all_ships_sunk ∧
      ((g.player_board.receive_shot
          (RandomStrategy.get_next_shot g.ai_strategy k)).1.are_all_ships_sunk
          = true → (g.ai_shoot k).1.winner = some "AI") ∧
      ((g.player_board.receive_shot
          (RandomStrategy.get_next_shot g.ai_strategy k)).1.are_all_ships_sunk
          = false → (g.ai_shoot k).1.winner = g.winner)) := by
  refine ⟨fun hover => ?_, fun hover hav => ?_, fun hover hav => ?_⟩
  · unfold Game.ai_shoot
    simp [hover]
  · have hpos : RandomStrategy.get_next_shot g.ai_strategy k = (-1, -1) := by
      unfold RandomStrategy.get_next_shot
      simp [hav]
    unfold Game.ai_shoot
    simp [hover, hpos]
  · have hne : RandomStrategy.get_next_shot g.ai_strategy k ≠ (-1, -1) := by
      intro heq
      have hmem : RandomStrategy.get_next_shot g.ai_strategy k ∈
          g.ai_strategy.get_available_positions := by
        unfold RandomStrategy.get_next_shot
        have hempty : g.ai_strategy.get_available_positions.isEmpty
            = false := by
          simpa [List.isEmpty_iff] using hav
        simp only [hempty, Bool.false_eq_true, if_false]
        have hlen : 0 < g.ai_strategy.get_available_positions.length :=
          List.length_pos.2 hav
        rw [List.getD_eq_getElem _ _ (Nat.mod_lt _ hlen)]
        exact List.getElem_mem _
      have hspec := (mem_available_iff g.ai_strategy _).1 hmem
      rw [heq] at hspec
      omega
    unfold Game.ai_shoot
    simp only [hover, Bool.false_eq_true, if_false, hne, if_neg hne]
    by_cases hsunk : ((g.player_board.receive_shot
        (RandomStrategy.get_next_shot g.ai_strategy k)).1.are_all_ships_sunk)
        = true
    · simp [hsunk]
    · have hs : ((g.player_board.receive_shot
          (RandomStrategy.get_next_shot g.ai_strategy k)).1.are_all_ships_sunk)
          = false := Bool.eq_false_iff.2 hsunk
      simp [hs, hover]

/-- C4: on an already-terminal game `play_turn` returns immediately — the
game (both boards, strategy, turn counter) is unchanged and the summary
holds only the terminal flag and winner; and when the player's shot makes
the game terminal, no AI shot is issued in that call: the player board and
the AI strategy are untouched, the summary has no AI shot, and its winner is
"Player". -/
theorem claim_C4_terminal_and_player_win_guard (g : Game) (p : Int × Int)
    (k : Nat) :
    (g.game_over = true →
      (g.play_turn p k).1 = g ∧
      (g.play_turn p k).2 = { player_shot := none,
                              player_result := none,
                              ai_shot := none,
                              ai_result := none,
                              game_over := true,
                              winner := g.winner,
                              turn_count := none }) ∧
    (g.game_over = false →
      (({ g with turn_count := g.turn_count + 1 } : Game).player_shoot
          p).1.game_over = true →
      (g.play_turn p k).1.player_board = g.player_board ∧
      (g.play_turn p k).1.ai_strategy = g.ai_strategy ∧
      (g.play_turn p k).2.ai_shot = none ∧
      (g.play_turn p k).2.ai_result = none ∧
      (g.play_turn p k).2.winner = some "Player") := by
  constructor
  · intro hover
    unfold Game.play_turn
    simp [hover]
  · intro hover hw
    simp only [hover] at hw
    unfold Game.play_turn
    simp only [hover, Bool.false_eq_true, if_false, hw, if_true]
    exact ⟨player_shoot_player_board _ p, player_shoot_ai_strategy _ p,
      trivial, trivial, player_shoot_winner_of_win _ p rfl hw⟩

/-- Counterexample to C3 as stated: on a game that is not terminal on entry
(one hit away from a player win), the summary returned by `play_turn`
contains no AI shot position, no AI result and no turn-count state, although
the claim promises both shot positions, both results and the turn-count
state for every game that is not terminal on entry. -/
theorem claim_C3_counterexample :
    nearlySunkGame.game_over = false ∧
    (nearlySunkGame.play_turn (0, 0) 0).2.ai_shot = none ∧
    (nearlySunkGame.play_turn (0, 0) 0).2.ai_result = none ∧
    (nearlySunkGame.play_turn (0, 0) 0).2.turn_count = none := by
  decide

/-- C3 (amended): for every game not terminal on entry, `play_turn`
increments the turn counter by exactly one regardless of how many sub-shots
occurred, and the summary carries the player's shot position and result and
the updated terminal flag and winner; it carries the AI shot position, the
AI result and the turn-count state exactly when the player's shot did not
make the game terminal. -/
theorem claim_C3_play_turn_summary_amended (g : Game) (p : Int × Int)
    (k : Nat) (h : g.game_over = false) :
    (g.play_turn p k).1.turn_count = g.turn_count + 1 ∧
    (g.play_turn p k).2.player_shot = some p ∧
    (g.play_turn p k).2.player_result =
      some (({ g with turn_count := g.turn_count + 1 } : Game).player_shoot
        p).2 ∧
    (g.play_turn p k).2.game_over = (g.play_turn p k).1.game_over ∧
    (g.play_turn p k).2.winner = (g.play_turn p k).1.winner ∧
    ((({ g with turn_count := g.turn_count + 1 } : Game).player_shoot
        p).1.game_over = true →
      (g.play_turn p k).2.ai_shot = none ∧
      (g.play_turn p k).2.ai_result = none ∧
      (g.play_turn p k).2.turn_count = none) ∧
    ((({ g with turn_count := g.turn_count + 1 } : Game).player_shoot
        p).1.game_over = false →
      (g.play_turn p k).2.ai_shot =
        some ((({ g with turn_count := g.turn_count + 1 } : Game).player_shoot
          p).1.ai_shoot k).2.1 ∧
      (g.play_turn p k).2.ai_result =
        some ((({ g with turn_count := g.turn_count + 1 } : Game).player_shoot
          p).1.ai_shoot k).2.2 ∧
      (g.play_turn p k).2.turn_count = some (g.turn_count + 1)) := by
  unfold Game.play_turn
  rw [if_neg (by simp [h])]
  by_cases hps : (({ g with turn_count := g.turn_count + 1 }
      : Game).player_shoot p).1.game_over = true
  · rw [if_pos hps]
    refine ⟨player_shoot_turn_count _ p, rfl, rfl, hps.symm, rfl,
      fun _ => ⟨rfl, rfl, rfl⟩, fun hf => ?_⟩
    rw [hf] at hps
    exact Bool.noConfusion hps
  · rw [if_neg hps]
    refine ⟨?_, rfl, rfl, rfl, rfl, fun ht => absurd ht hps,
      fun _ => ⟨rfl, rfl, ?_⟩⟩
    · simp only [ai_shoot_turn_count, player_shoot_turn_count]
    · simp only [ai_shoot_turn_count, player_shoot_turn_count]

/-- Witness for C3 at a concrete input: on a fresh 2×2 game (not terminal on
entry) `play_turn (0, 0)` raises the turn counter from 0 to 1 and reports
player shot `(0, 0)`. -/
theorem claim_C3_witness :
    ((Game.init 2).play_turn (0, 0) 0).1.turn_count =
      (Game.init 2).turn_count + 1 ∧
    ((Game.init 2).play_turn (0, 0) 0).2.player_shot = some (0, 0) :=
  ⟨(claim_C3_play_turn_summary_amended (Game.init 2) (0, 0) 0 rfl).1,
   (claim_C3_play_turn_summary_amended (Game.init 2) (0, 0) 0 rfl).2.1⟩

end Battleship
